import Mathlib

/-!
Shallow embedding of `pydecensooru` (src/pydecensooru/main.py) in Lean 4.

Python strings are modelled as `String`, Python ints as `Int` (batch-name
numeric keys as `Nat`), dicts of post info as a record `Post` whose optional
fields model key presence, the on-disk batch store as an association list
from batch file name to its list of lines, and the network as an explicit
environment (`Env`): the GitHub listing call is an `Except` value and the
per-batch content fetch is a function returning `none` for a non-success
HTTP status.  Python exceptions are modelled with `Except PyErr`; the only
exception kinds the claims need are `ValueError` (tuple-unpacking arity
mismatch) and request/parse errors from `requests`.
-/

deriving instance DecidableEq for Except

namespace Pydecensooru

/-- Python `str.split(sep)` for a single-character separator: split at every
occurrence of `sep`, keeping empty fragments, so that `"".split(sep)`
gives `[""]`.  (Defined by structural recursion over the character list so
that concrete instances evaluate inside the kernel.) -/
def splitChar (sep : Char) (s : String) : List String :=
  let r := s.data.foldl
    (fun (acc : List String × List Char) c =>
      if c == sep then (acc.1 ++ [String.mk acc.2.reverse], [])
      else (acc.1, c :: acc.2))
    ([], [])
  r.1 ++ [String.mk r.2.reverse]

/-- Exceptions that can escape the embedded functions: `valueError` models
Python `ValueError` (e.g. unpacking a list whose length is not 2), and
`requestError` models `requests` network/JSON failures propagating out of
`update_batches`. -/
inductive PyErr where
  | valueError
  | requestError
deriving DecidableEq, Repr

/-- A Danbooru post-info dict.  `id` and `image_width` are always present
(the code reads them unconditionally on the censored path); the `Option`
fields model presence of the corresponding dict keys; `extra` models all
remaining opaque key/value pairs, so that record equality models dict
equality. -/
structure Post where
  id : Int
  image_width : Int
  md5 : Option String := none
  file_ext : Option String := none
  file_url : Option String := none
  large_file_url : Option String := none
  preview_file_url : Option String := none
  extra : List (String × String) := []
deriving DecidableEq, Repr

/-- One entry of the GitHub contents-API listing: `update_batches` reads
`name`, `type` and `download_url` of each entry. -/
structure RemoteEntry where
  name : String
  type : String
  download_url : String
deriving DecidableEq, Repr

/-- The on-disk state: the content of `LAST_PULL_DATE_FILE` (already
`.strip()`ped; `""` models a missing file) and the batch store directory as
an association list from file name to list of lines. -/
structure SyncState where
  lastPullDate : String
  localBatches : List (String × List String)
deriving DecidableEq, Repr

/-- Observable outcome of the sync part of `find_censored_md5ext`:
the resulting on-disk state, whether an exception propagated to the caller,
how many listing requests were made, and which batch names had a content
download attempted. -/
structure SyncOutcome where
  finalState : SyncState
  raised : Bool
  listingCalls : Nat
  fetched : List String
deriving DecidableEq, Repr

/-- The external world: result of the batch-listing request (`.error` when
the listing cannot be retrieved or parsed), the per-URL content fetch
(`none` models a non-success status that `raise_for_status` turns into a
skipped batch), and today's UTC date token. -/
structure Env where
  listing : Except Unit (List RemoteEntry)
  fetch : String → Option (List String)
  today : String

/-- Python `str.rstrip()`: drop trailing whitespace characters. -/
def pyRstrip (s : String) : String :=
  String.mk ((s.data.reverse.dropWhile Char.isWhitespace).reverse)

/-- Python `str.rstrip("/")`: drop trailing slash characters. -/
def rstripSlash (s : String) : String :=
  String.mk ((s.data.reverse.dropWhile (fun c => c == '/')).reverse)

/-- Python `int(s)` on a string of decimal digits (`none` when `s` is not
all digits; batch names are digit strings). -/
def pyInt? (s : String) : Option Nat :=
  if s.data ≠ [] ∧ s.data.all (fun c => c.isDigit) then
    some (s.data.foldl (fun n c => n * 10 + (c.toNat - '0'.toNat)) 0)
  else none

/-- The sort key used by `sorted(batches_url, key=int)`: the numeric value
of a batch name (`0` as a don't-care default keeps the model total). -/
def keyOf (s : String) : Nat :=
  (pyInt? s).getD 0

/-- Comparison of batch names by numeric value. -/
def keyLe (a b : String) : Prop :=
  keyOf a ≤ keyOf b

instance : DecidableRel keyLe :=
  fun a b => inferInstanceAs (Decidable (keyOf a ≤ keyOf b))

instance : IsTotal String keyLe :=
  ⟨fun a b => Nat.le_total (keyOf a) (keyOf b)⟩

instance : IsTrans String keyLe :=
  ⟨fun _ _ _ h1 h2 => Nat.le_trans h1 h2⟩

/-- Writing a batch file with `AtomicFile(BATCHES_DIR / name, "w")`:
overwrite the entry if present, else create it. -/
def setStore (store : List (String × List String)) (name : String)
    (content : List String) : List (String × List String) :=
  if store.any (fun b => b.1 == name) then
    store.map (fun b => if b.1 == name then (name, content) else b)
  else
    store ++ [(name, content)]

/-- Dict access `batches_url[name]`. -/
def urlFor (urls : List (String × String)) (n : String) : String :=
  (urls.find? (fun p => p.1 == n)).elim "" (fun p => p.2)

/-- `update_batches` given an already-parsed listing: keep `type == "file"`
entries, sort names ascending by numeric value, and for each name in order
skip it when it is already present locally and is not the last (highest)
sorted name; otherwise attempt its content download, skipping it on a
non-success status and atomically (over)writing it on success.  Returns the
names whose download was attempted and the resulting batch store. -/
def updateBatches (entries : List RemoteEntry)
    (fetch : String → Option (List String))
    (store : List (String × List String)) :
    List String × List (String × List String) :=
  let files := entries.filter (fun e => e.type == "file")
  let urls := files.map (fun e => (e.name, e.download_url))
  let names := urls.map (fun p => p.1)
  let order := List.insertionSort keyLe names
  let existing := store.map (fun b => b.1)
  let lastName := order.getLast?
  let attempts := order.filter (fun n => !(existing.contains n && !(some n == lastName)))
  let newStore := attempts.foldl (fun st n =>
    match fetch (urlFor urls n) with
    | none => st
    | some content => setStore st n content) store
  (attempts, newStore)

/-- The sync prologue of `find_censored_md5ext`: read the last-pull date,
compare it with today's token, and when they differ run `update_batches`
and then persist today's token.  A listing failure inside `update_batches`
propagates (`raised`) before the date file is written. -/
def ensureFresh (env : Env) (s : SyncState) : SyncOutcome :=
  if s.lastPullDate = env.today then
    ⟨s, false, 0, []⟩
  else
    match env.listing with
    | .error _ => ⟨s, true, 1, []⟩
    | .ok entries =>
      let r := updateBatches entries env.fetch s.localBatches
      ⟨⟨env.today, r.2⟩, false, 1, r.1⟩

/-- The inner loop of `find_censored_md5ext` over one batch file's lines:
`an_id, its_md5_ext = line.split(":")` raises `ValueError` unless the line
has exactly one colon; on a textual id match the function returns
`its_md5_ext.rstrip().split(".")`. -/
def scanLines (pid : String) : List String → Except PyErr (Option (List String))
  | [] => .ok none
  | l :: ls =>
    match splitChar ':' l with
    | [anId, md5ext] =>
      if pid == anId then .ok (some (splitChar '.' (pyRstrip md5ext)))
      else scanLines pid ls
    | _ => .error .valueError

/-- The outer loop of `find_censored_md5ext` over the batch files. -/
def scanStore (pid : String) : List (String × List String) → Except PyErr (Option (List String))
  | [] => .ok none
  | (_, ls) :: rest =>
    match scanLines pid ls with
    | .error e => .error e
    | .ok (some v) => .ok (some v)
    | .ok none => scanStore pid rest

/-- `find_censored_md5ext(post_id)`: ensure freshness, then scan the batch
store for `str(post_id)`; returns the sync outcome together with the scan
result (`.ok none` models Python returning `None`). -/
def find_censored_md5ext (env : Env) (s : SyncState) (postId : Int) :
    SyncOutcome × Except PyErr (Option (List String)) :=
  let o := ensureFresh env s
  (o, if o.raised then .error .requestError
      else scanStore (toString postId) o.finalState.localBatches)

/-- `sample_ext = "jpg" if ext != "zip" else "webm"`. -/
def sampleExtOf (ext : String) : String :=
  if ext ≠ "zip" then "jpg" else "webm"

/-- The two-level directory component `{md5[:2]}/{md5[2:4]}`. -/
def md5Dirs (md5 : String) : String :=
  md5.take 2 ++ "/" ++ (md5.drop 2).take 2

/-- The legacy mirror base chosen by `"raikou2" if info["id"] > 850_000
else "raikou1"`. -/
def legacyBase (pid : Int) : String :=
  "https://" ++ (if pid > 850000 then "raikou2" else "raikou1") ++ ".donmai.us"

/-- The `file_url` string built by `fill_missing_info`. -/
def builtFileUrl (pid : Int) (siteUrl md5 ext : String) : String :=
  if pid > 2800000 then
    rstripSlash siteUrl ++ "/data/" ++ md5 ++ "." ++ ext
  else
    legacyBase pid ++ "/" ++ md5Dirs md5 ++ "/" ++ md5 ++ "." ++ ext

/-- The `sample_url` string built by `fill_missing_info` before the
narrow-image override. -/
def builtSampleUrl (pid : Int) (siteUrl md5 sampleExt : String) : String :=
  if pid > 2800000 then
    rstripSlash siteUrl ++ "/data/sample/sample-" ++ md5 ++ "." ++ sampleExt
  else
    legacyBase pid ++ "/sample/" ++ md5Dirs md5 ++ "/sample-" ++ md5 ++ "." ++ sampleExt

/-- The record returned by `fill_missing_info` once `md5` and `ext` have
been resolved: `{**info, **{...}}` with the five derived fields, where
`sample_url` is forced equal to `file_url` when `image_width < 850`. -/
def buildInfo (info : Post) (siteUrl md5 ext : String) : Post :=
  let sampleExt := sampleExtOf ext
  let fileUrl := builtFileUrl info.id siteUrl md5 ext
  let sampleUrl0 := builtSampleUrl info.id siteUrl md5 sampleExt
  let sampleUrl := if info.image_width < 850 then fileUrl else sampleUrl0
  { info with
      file_ext := some ext
      md5 := some md5
      file_url := some fileUrl
      large_file_url := some sampleUrl
      preview_file_url :=
        some ("https://raikou4.donmai.us/preview/" ++ md5Dirs md5 ++ "/" ++ md5 ++ ".jpg") }

/-- `fill_missing_info`: look the id up; `except TypeError` catches exactly
the unpacking of a returned `None` (yielding the input unchanged); a
returned list whose length is not 2 makes the unpacking raise `ValueError`,
which is not caught; other exceptions propagate. -/
def fill_missing_info (env : Env) (s : SyncState) (info : Post) (siteUrl : String) :
    SyncOutcome × Except PyErr Post :=
  let r := find_censored_md5ext env s info.id
  (r.1,
   match r.2 with
   | .error e => .error e
   | .ok none => .ok info
   | .ok (some [md5, ext]) => .ok (buildInfo info siteUrl md5 ext)
   | .ok (some _) => .error .valueError)

/-- `decensor`: a record that already has the `"md5"` key is returned
unchanged without touching the sync state; otherwise `fill_missing_info`
runs. -/
def decensor (env : Env) (s : SyncState) (info : Post) (siteUrl : String) :
    SyncOutcome × Except PyErr Post :=
  if info.md5.isSome then (⟨s, false, 0, []⟩, .ok info)
  else fill_missing_info env s info siteUrl

/-- `decensor_iter`: yield `decensor` of each post in order, threading the
on-disk state; an exception raised by `decensor` escapes the generator and
aborts the iteration. -/
def decensor_iter (env : Env) (s : SyncState) (posts : List Post) (siteUrl : String) :
    Except PyErr (List Post × SyncState) :=
  match posts with
  | [] => .ok ([], s)
  | p :: ps =>
    let r := decensor env s p siteUrl
    match r.2 with
    | .error e => .error e
    | .ok p2 =>
      match decensor_iter env r.1.finalState ps siteUrl with
      | .error e => .error e
      | .ok (rest, s2) => .ok (p2 :: rest, s2)

/-- The date token `f"{date.year}{date.month}{date.day}"`: decimal strings
concatenated with no zero-padding. -/
def dateToken (y m d : Nat) : String :=
  toString y ++ toString m ++ toString d

/-- A line is well-formed when it has exactly one colon and the part after
it, once trailing whitespace is trimmed, has exactly one dot: the
`"<id>:<md5>.<ext>"` shape. -/
def goodLine (l : String) : Bool :=
  match splitChar ':' l with
  | [_, b] => (splitChar '.' (pyRstrip b)).length == 2
  | _ => false

/-- Every line of every batch file is well-formed. -/
def goodStore (store : List (String × List String)) : Bool :=
  store.all (fun b => b.2.all goodLine)

/-- Rejoin with `":"` the fragments produced by splitting on `":"`. -/
def joinColon : List String → String
  | [] => ""
  | [a] => a
  | a :: b :: rest => a ++ ":" ++ joinColon (b :: rest)

/-- Rejoin with `"."` the fragments produced by splitting on `"."`. -/
def joinDot : List String → String
  | [] => ""
  | [a] => a
  | a :: b :: rest => a ++ "." ++ joinDot (b :: rest)

/-- Split a line at its FIRST colon, as the specification words it;
`none` when the line has no colon. -/
def splitFirstColon (l : String) : Option (String × String) :=
  match splitChar ':' l with
  | a :: b :: rest => some (a, joinColon (b :: rest))
  | _ => none

/-- Split a string at its LAST dot, as the specification words it;
`none` when the string has no dot. -/
def splitLastDot (s : String) : Option (String × String) :=
  match splitChar '.' s with
  | a :: b :: rest =>
    some (joinDot ((a :: b :: rest).dropLast), (a :: b :: rest).getLast (by simp))
  | _ => none

/-- Lookup over one file's lines as the specification describes it: split
each line at the first colon into `(id_text, md5ext_text)`, compare
`id_text` textually against the post-id string, and on the first match trim
trailing whitespace from `md5ext_text` and split it at the last dot into
the `(md5, ext)` pair. -/
def specLookupLines (pid : String) : List String → Option (String × String)
  | [] => none
  | l :: ls =>
    match splitFirstColon l with
    | some (idText, md5extText) =>
      if idText = pid then splitLastDot (pyRstrip md5extText)
      else specLookupLines pid ls
    | none => specLookupLines pid ls

/-- Lookup over the batch files as the specification describes it. -/
def specLookupStore (pid : String) : List (String × List String) → Option (String × String)
  | [] => none
  | (_, ls) :: rest =>
    match specLookupLines pid ls with
    | some v => some v
    | none => specLookupStore pid rest

/-- Pure description of `decensor` on a store that is already fresh for the
day: no sync happens, and the scan either misses (post returned unchanged)
or yields the md5/ext pair used to build the URLs. -/
def resolvePure (store : List (String × List String)) (p : Post) (siteUrl : String) : Post :=
  if p.md5.isSome then p
  else
    match scanStore (toString p.id) store with
    | .ok (some [m, e]) => buildInfo p siteUrl m e
    | _ => p

/-- On well-formed lines the code's scan agrees with the specification's
first-colon / last-dot description. -/
lemma scanLines_eq_spec (pid : String) (ls : List String) (h : ls.all goodLine = true) :
    scanLines pid ls = .ok ((specLookupLines pid ls).map (fun p => [p.1, p.2])) := by
  induction ls with
  | nil => rfl
  | cons l ls ih =>
    rw [List.all_cons, Bool.and_eq_true] at h
    obtain ⟨hl, hls⟩ := h
    rcases hsp : splitChar ':' l with _ | ⟨a, _ | ⟨b, _ | ⟨c, rest⟩⟩⟩ <;>
      simp [goodLine, hsp] at hl
    rcases hdot : splitChar '.' (pyRstrip b) with _ | ⟨m, _ | ⟨e, _ | ⟨f, rest2⟩⟩⟩ <;>
      simp [hdot] at hl
    simp only [scanLines, specLookupLines, splitFirstColon, hsp, joinColon]
    by_cases hpe : pid = a
    · subst hpe
      simp [splitLastDot, hdot, joinDot]
    · rw [if_neg (by simpa using hpe), if_neg (fun hc => hpe hc.symm)]
      exact ih hls

/-- On a well-formed store the code's scan agrees with the specification's
description of the lookup. -/
lemma scanStore_eq_spec (pid : String) (store : List (String × List String))
    (h : goodStore store = true) :
    scanStore pid store = .ok ((specLookupStore pid store).map (fun p => [p.1, p.2])) := by
  induction store with
  | nil => rfl
  | cons b rest ih =>
    rw [goodStore, List.all_cons, Bool.and_eq_true] at h
    obtain ⟨hb, hrest⟩ := h
    obtain ⟨name, ls⟩ := b
    simp only [scanStore, specLookupStore, scanLines_eq_spec pid ls hb]
    cases specLookupLines pid ls with
    | none => exact ih hrest
    | some v => rfl

/-- A scan that has already found a match is unaffected by any lines that
come after the match. -/
lemma scanLines_append_of_some (pid : String) (ls1 ls2 : List String) (v : List String)
    (h : scanLines pid ls1 = .ok (some v)) :
    scanLines pid (ls1 ++ ls2) = .ok (some v) := by
  induction ls1 with
  | nil => exact absurd h (by simp [scanLines])
  | cons l ls ih =>
    rw [List.cons_append]
    rcases hsp : splitChar ':' l with _ | ⟨a, _ | ⟨b, _ | ⟨c, rest⟩⟩⟩ <;>
      simp only [scanLines, hsp] at h ⊢ <;> try exact h
    by_cases hpe : (pid == a) = true
    · rw [if_pos hpe] at h ⊢; exact h
    · rw [if_neg hpe] at h ⊢; exact ih h

/-- A scan that has already found a match is unaffected by any batch files
that come after the file containing the match. -/
lemma scanStore_append_of_some (pid : String) (st1 st2 : List (String × List String))
    (v : List String) (h : scanStore pid st1 = .ok (some v)) :
    scanStore pid (st1 ++ st2) = .ok (some v) := by
  induction st1 with
  | nil => exact absurd h (by simp [scanStore])
  | cons b rest ih =>
    obtain ⟨name, ls⟩ := b
    rw [List.cons_append]
    cases hs : scanLines pid ls with
    | error e => simp only [scanStore, hs] at h ⊢; exact h
    | ok o =>
      cases o with
      | none => simp only [scanStore, hs] at h ⊢; exact ih h
      | some w => simp only [scanStore, hs] at h ⊢; exact h

/-- On a well-formed store the scan never raises: it either misses or
yields a two-element md5/ext list. -/
lemma scanStore_good_shape (pid : String) (store : List (String × List String))
    (h : goodStore store = true) :
    scanStore pid store = .ok none ∨ ∃ m e, scanStore pid store = .ok (some [m, e]) := by
  rw [scanStore_eq_spec pid store h]
  cases specLookupStore pid store with
  | none => exact Or.inl rfl
  | some p => exact Or.inr ⟨p.1, p.2, rfl⟩

/-- With a store that is fresh for the day and well-formed, `decensor` is a
pure function of the store: no sync, no exception. -/
lemma decensor_fresh (env : Env) (s : SyncState) (p : Post) (site : String)
    (hf : s.lastPullDate = env.today) (hg : goodStore s.localBatches = true) :
    decensor env s p site = (⟨s, false, 0, []⟩, .ok (resolvePure s.localBatches p site)) := by
  by_cases hm : p.md5.isSome
  · simp [decensor, hm, resolvePure]
  · rcases scanStore_good_shape (toString p.id) s.localBatches hg with hsc | ⟨m, e, hsc⟩ <;>
      simp [decensor, hm, fill_missing_info, find_censored_md5ext, ensureFresh, hf,
        resolvePure, hsc]

/-- Iterated version of `decensor_fresh`: the traversal completes and maps
each post through the pure resolution. -/
lemma decensor_iter_fresh (env : Env) (s : SyncState) (posts : List Post) (site : String)
    (hf : s.lastPullDate = env.today) (hg : goodStore s.localBatches = true) :
    decensor_iter env s posts site =
      .ok (posts.map (fun p => resolvePure s.localBatches p site), s) := by
  induction posts with
  | nil => rfl
  | cons p ps ih =>
    simp only [decensor_iter, decensor_fresh env s p site hf hg, ih, List.map_cons]

/-- In a list sorted by numeric batch name, the last element's key bounds
every member's key. -/
lemma sorted_keyLe_getLastQ :
    ∀ (l : List String), l.Sorted keyLe → ∀ x ∈ l, ∀ y, l.getLast? = some y → keyLe x y
  | [], _, x, hx, y, _ => absurd hx (List.not_mem_nil x)
  | a :: t, hs, x, hx, y, hy => by
    rcases List.sorted_cons.mp hs with ⟨ha, ht⟩
    cases t with
    | nil =>
      rw [List.mem_singleton] at hx
      subst hx
      cases hy
      exact Nat.le_refl _
    | cons b t' =>
      rw [List.getLast?_cons_cons] at hy
      rcases List.mem_cons.mp hx with rfl | hx'
      · have hmem : y ∈ b :: t' := by
          rcases List.mem_getLast?_eq_getLast (by rw [hy]; rfl) with ⟨hne, hyl⟩
          rw [hyl]
          exact List.getLast_mem hne
        exact ha _ hmem
      · exact sorted_keyLe_getLastQ (b :: t') ht x hx' y hy

/-- Concrete environment for instantiations: the listing request fails,
every per-batch fetch has a non-success status, today's token is `"T"`. -/
def envT : Env := ⟨.error (), fun _ => none, "T"⟩

/-- A store holding one batch file with a single well-formed record. -/
def storeT : List (String × List String) :=
  [("1", ["5:aaaabbbbccccddddeeeeffff00001111.png"])]

/-- A state fresh for token `"T"` with store `storeT`. -/
def stT : SyncState := ⟨"T", storeT⟩

/-- A censored post record (no md5 key) with id 5. -/
def postT : Post := { id := 5, image_width := 1000 }

/-- C7: `decensor` returns its input record unchanged whenever the record
already contains an `"md5"` field, and also whenever the lookup reports the
id as absent from every batch. -/
theorem claim7_decensor_identity (env : Env) (s : SyncState) (info : Post) (site : String) :
    (info.md5.isSome → (decensor env s info site).2 = .ok info) ∧
    ((find_censored_md5ext env s info.id).2 = .ok none →
      (decensor env s info site).2 = .ok info) := by
  constructor
  · intro hm
    simp [decensor, hm]
  · intro hf
    by_cases hm : info.md5.isSome
    · simp [decensor, hm]
    · simp [decensor, hm, fill_missing_info, hf]

/-- Closed instantiation of the C7 theorem: a record with an md5 key, and a
record whose id 6 misses the store, both come back unchanged. -/
theorem claim7_witness :
    (decensor envT stT { postT with md5 := some "ffff" } "x").2 =
      .ok { postT with md5 := some "ffff" } ∧
    (decensor envT stT { postT with id := 6 } "x").2 = .ok { postT with id := 6 } :=
  ⟨(claim7_decensor_identity envT stT { postT with md5 := some "ffff" } "x").1 (by decide),
   (claim7_decensor_identity envT stT { postT with id := 6 } "x").2 (by decide)⟩

/-- C9: for every successfully resolved post with `image_width < 850`, the
returned `large_file_url` equals the returned `file_url`. -/
theorem claim9_narrow_image (env : Env) (s : SyncState) (info : Post) (site md5 ext : String)
    (hres : (find_censored_md5ext env s info.id).2 = .ok (some [md5, ext]))
    (hw : info.image_width < 850) :
    ∃ p, (fill_missing_info env s info site).2 = .ok p ∧
      p.large_file_url = p.file_url := by
  refine ⟨buildInfo info site md5 ext, ?_, ?_⟩
  · simp [fill_missing_info, hres]
  · simp [buildInfo, hw]

/-- Closed instantiation of the C9 theorem at a width-100 post. -/
theorem claim9_witness :
    ∃ p, (fill_missing_info envT stT { id := 5, image_width := 100 } "x").2 = .ok p ∧
      p.large_file_url = p.file_url :=
  claim9_narrow_image envT stT { id := 5, image_width := 100 } "x"
    "aaaabbbbccccddddeeeeffff00001111" "png" (by decide) (by decide)

/-- C8: for every successfully resolved post, the file URL (and, when the
narrow-image override does not apply, the sample URL) follow the id-range
dependent templates: above 2 800 000 the caller-supplied base with
`/data/...` paths, otherwise a legacy host picked by the 850 000 threshold
with the two-level md5 directory prefix. -/
theorem claim8_url_construction (env : Env) (s : SyncState) (info : Post)
    (site md5 ext : String)
    (hres : (find_censored_md5ext env s info.id).2 = .ok (some [md5, ext])) :
    ∃ p, (fill_missing_info env s info site).2 = .ok p ∧
      p.file_url = some (if info.id > 2800000 then
          rstripSlash site ++ "/data/" ++ md5 ++ "." ++ ext
        else
          "https://" ++ (if info.id > 850000 then "raikou2" else "raikou1") ++
            ".donmai.us" ++ "/" ++ (md5.take 2 ++ "/" ++ (md5.drop 2).take 2) ++
            "/" ++ md5 ++ "." ++ ext) ∧
      (850 ≤ info.image_width →
        p.large_file_url = some (if info.id > 2800000 then
            rstripSlash site ++ "/data/sample/sample-" ++ md5 ++ "." ++ sampleExtOf ext
          else
            "https://" ++ (if info.id > 850000 then "raikou2" else "raikou1") ++
              ".donmai.us" ++ "/sample/" ++ (md5.take 2 ++ "/" ++ (md5.drop 2).take 2) ++
              "/sample-" ++ md5 ++ "." ++ sampleExtOf ext)) := by
  refine ⟨buildInfo info site md5 ext, by simp [fill_missing_info, hres], ?_, ?_⟩
  · by_cases h28 : info.id > 2800000 <;> by_cases h85 : info.id > 850000 <;>
      simp [buildInfo, builtFileUrl, legacyBase, md5Dirs, h28, h85, String.append_assoc]
  · intro hw
    have hnw : ¬ info.image_width < 850 := by omega
    by_cases h28 : info.id > 2800000 <;> by_cases h85 : info.id > 850000 <;>
      simp [buildInfo, builtSampleUrl, legacyBase, md5Dirs, h28, h85, hnw, String.append_assoc]

/-- Closed instantiation of the C8 theorem at a legacy-range post. -/
theorem claim8_witness :
    ∃ p, (fill_missing_info envT stT postT "https://site.example").2 = .ok p ∧
      p.file_url =
        some "https://raikou1.donmai.us/aa/aa/aaaabbbbccccddddeeeeffff00001111.png" := by
  obtain ⟨p, h1, h2, h3⟩ := claim8_url_construction envT stT postT "https://site.example"
    "aaaabbbbccccddddeeeeffff00001111" "png" (by decide)
  refine ⟨p, h1, ?_⟩
  rw [h2]
  decide

/-- C4: `ensure_fresh` is idempotent within a calendar date: an equal
persisted token means an immediate return with no network access, and once
a call has completed without raising, a second call on the resulting state
(under the same date token) makes zero listing calls and zero fetches, so
the two calls together make at most one listing call. -/
theorem claim4_fresh_idempotent (env : Env) (s : SyncState) :
    (s.lastPullDate = env.today → ensureFresh env s = ⟨s, false, 0, []⟩) ∧
    ((ensureFresh env s).raised = false →
      ∀ env2 : Env, env2.today = env.today →
        ensureFresh env2 (ensureFresh env s).finalState =
          ⟨(ensureFresh env s).finalState, false, 0, []⟩ ∧
        (ensureFresh env s).listingCalls +
          (ensureFresh env2 (ensureFresh env s).finalState).listingCalls ≤ 1 ∧
        (ensureFresh env2 (ensureFresh env s).finalState).fetched = []) := by
  constructor
  · intro h
    simp [ensureFresh, h]
  · intro hok env2 h2
    by_cases h : s.lastPullDate = env.today
    · simp [ensureFresh, h, h2]
    · cases hl : env.listing with
      | error e => simp [ensureFresh, h, hl] at hok
      | ok entries => simp [ensureFresh, h, hl, h2]

/-- Closed instantiation of the C4 theorem on an already-fresh state. -/
theorem claim4_witness :
    ensureFresh envT stT = ⟨stT, false, 0, []⟩ ∧
    ensureFresh envT (ensureFresh envT stT).finalState =
      ⟨(ensureFresh envT stT).finalState, false, 0, []⟩ :=
  ⟨(claim4_fresh_idempotent envT stT).1 rfl,
   ((claim4_fresh_idempotent envT stT).2 (by decide) envT rfl).1⟩

/-- C5: when the remote listing fails, the error propagates to the lookup
caller, the persisted date is not updated, and a later call under the same
date token attempts the sync again. -/
theorem claim5_listing_failure (env : Env) (s : SyncState)
    (hstale : s.lastPullDate ≠ env.today) (hfail : env.listing = .error ()) :
    (ensureFresh env s).raised = true ∧
    (ensureFresh env s).finalState = s ∧
    (∀ postId : Int, (find_censored_md5ext env s postId).2 = .error PyErr.requestError) ∧
    (∀ env2 : Env, env2.today = env.today →
      (ensureFresh env2 (ensureFresh env s).finalState).listingCalls = 1) := by
  have h1 : ensureFresh env s = ⟨s, true, 1, []⟩ := by simp [ensureFresh, hstale, hfail]
  refine ⟨by rw [h1], by rw [h1], ?_, ?_⟩
  · intro postId
    simp [find_censored_md5ext, h1]
  · intro env2 h2
    rw [h1]
    by_cases hc : s.lastPullDate = env2.today
    · exact absurd (hc.trans h2) hstale
    · cases hl : env2.listing <;> simp [ensureFresh, hc, hl]

/-- Closed instantiation of the C5 theorem on a never-synced state. -/
theorem claim5_witness :
    (ensureFresh envT ⟨"", storeT⟩).raised = true ∧
    (find_censored_md5ext envT ⟨"", storeT⟩ 5).2 = .error PyErr.requestError := by
  obtain ⟨a, _, c, _⟩ := claim5_listing_failure envT ⟨"", storeT⟩ (by decide) rfl
  exact ⟨a, c 5⟩

/-- C10: the unpadded date token collides across distinct calendar dates
(2026-01-12 and 2026-11-02 both give `"2026112"`), and on the later date
the freshness check sees an equal token and skips the refresh with no
network access. -/
theorem claim10_date_token_collision (env : Env) (s : SyncState)
    (h1 : env.today = dateToken 2026 11 2) (h2 : s.lastPullDate = dateToken 2026 1 12) :
    dateToken 2026 1 12 = dateToken 2026 11 2 ∧
    ((2026, 1, 12) : Nat × Nat × Nat) ≠ ((2026, 11, 2) : Nat × Nat × Nat) ∧
    ensureFresh env s = ⟨s, false, 0, []⟩ := by
  refine ⟨by decide, by decide, ?_⟩
  have h : s.lastPullDate = env.today := by rw [h1, h2]; decide
  simp [ensureFresh, h]

/-- Closed instantiation of the C10 theorem at the colliding dates. -/
theorem claim10_witness :
    ensureFresh ⟨.error (), fun _ => none, dateToken 2026 11 2⟩ ⟨dateToken 2026 1 12, []⟩ =
      ⟨⟨dateToken 2026 1 12, []⟩, false, 0, []⟩ :=
  (claim10_date_token_collision ⟨.error (), fun _ => none, dateToken 2026 11 2⟩
    ⟨dateToken 2026 1 12, []⟩ rfl rfl).2.2

/-- C3: on a well-formed store the scan agrees with the specification's
description (first-colon split, textual id comparison, trailing-whitespace
trim then last-dot split, first match wins, `none` when nothing matches);
a found match is unaffected by later lines and later files; and a
zero-padded id text does not match. -/
theorem claim3_lookup_scan (postId : Int) (store : List (String × List String)) :
    (goodStore store = true →
      scanStore (toString postId) store =
        .ok ((specLookupStore (toString postId) store).map (fun p => [p.1, p.2]))) ∧
    (∀ ls1 ls2 v, scanLines (toString postId) ls1 = .ok (some v) →
      scanLines (toString postId) (ls1 ++ ls2) = .ok (some v)) ∧
    (∀ st1 st2 v, scanStore (toString postId) st1 = .ok (some v) →
      scanStore (toString postId) (st1 ++ st2) = .ok (some v)) ∧
    scanLines (toString (7 : Int)) ["007:aa.jpg"] = .ok none :=
  ⟨fun h => scanStore_eq_spec _ store h,
   fun a b c h => scanLines_append_of_some _ a b c h,
   fun a b c h => scanStore_append_of_some _ a b c h,
   by decide⟩

/-- Closed instantiation of the C3 theorem: the scan of `storeT` agrees
with the specification description, and a match short-circuits past a later
malformed file. -/
theorem claim3_witness :
    scanStore (toString (5 : Int)) storeT =
      .ok ((specLookupStore (toString (5 : Int)) storeT).map (fun p => [p.1, p.2])) ∧
    scanStore (toString (5 : Int)) (storeT ++ [("2", ["junk"])]) =
      .ok (some ["aaaabbbbccccddddeeeeffff00001111", "png"]) := by
  obtain ⟨a, _, c, _⟩ := claim3_lookup_scan 5 storeT
  exact ⟨a (by decide), c storeT [("2", ["junk"])] _ (by decide)⟩

/-- The record produced for `postT` against `storeT`: extension `"png"`,
yet a sample URL ending in `".jpg"`. -/
def resT : Post :=
  { id := 5, image_width := 1000,
    md5 := some "aaaabbbbccccddddeeeeffff00001111",
    file_ext := some "png",
    file_url := some "https://raikou1.donmai.us/aa/aa/aaaabbbbccccddddeeeeffff00001111.png",
    large_file_url :=
      some "https://raikou1.donmai.us/sample/aa/aa/sample-aaaabbbbccccddddeeeeffff00001111.jpg",
    preview_file_url :=
      some "https://raikou4.donmai.us/preview/aa/aa/aaaabbbbccccddddeeeeffff00001111.jpg",
    extra := [] }

/-- C1 counterexample: a post whose lookup succeeds with extension `"png"`
gets a sample URL built with extension `"jpg"`, not with `ext` itself, so
the sample extension does not default to the main extension. -/
theorem claim1_counterexample :
    (fill_missing_info envT stT postT "https://danbooru.donmai.us").2 = .ok resT ∧
    resT.file_ext = some "png" ∧
    resT.large_file_url ≠
      some (builtSampleUrl postT.id "https://danbooru.donmai.us"
        "aaaabbbbccccddddeeeeffff00001111" "png") ∧
    resT.large_file_url =
      some (builtSampleUrl postT.id "https://danbooru.donmai.us"
        "aaaabbbbccccddddeeeeffff00001111" "jpg") := by
  refine ⟨by decide, by decide, by decide, by decide⟩

/-- C1 amended: for every censored post whose lookup succeeds with
extension `ext`, the sample-file extension used to build the sample URL is
`"webm"` when `ext` is `"zip"` and `"jpg"` for every other `ext` (it equals
`ext` itself only when `ext` is already `"jpg"`). -/
theorem claim1_amended_sample_ext (env : Env) (s : SyncState) (info : Post)
    (site md5 ext : String)
    (hres : (find_censored_md5ext env s info.id).2 = .ok (some [md5, ext])) :
    ∃ p, (fill_missing_info env s info site).2 = .ok p ∧
      p.file_ext = some ext ∧
      (850 ≤ info.image_width →
        p.large_file_url = some (builtSampleUrl info.id site md5
          (if ext = "zip" then "webm" else "jpg"))) := by
  refine ⟨buildInfo info site md5 ext, by simp [fill_missing_info, hres],
    by simp [buildInfo], ?_⟩
  intro hw
  have hnw : ¬ info.image_width < 850 := by omega
  by_cases hz : ext = "zip" <;> simp [buildInfo, sampleExtOf, hnw, hz]

/-- Closed instantiation of the amended C1 theorem: `"png"` maps to sample
extension `"jpg"`. -/
theorem claim1_amended_witness :
    ∃ p, (fill_missing_info envT stT postT "x").2 = .ok p ∧
      p.file_ext = some "png" ∧
      p.large_file_url =
        some (builtSampleUrl postT.id "x" "aaaabbbbccccddddeeeeffff00001111" "jpg") := by
  obtain ⟨p, h1, h2, h3⟩ := claim1_amended_sample_ext envT stT postT "x"
    "aaaabbbbccccddddeeeeffff00001111" "png" (by decide)
  refine ⟨p, h1, h2, ?_⟩
  have h4 := h3 (by decide)
  rwa [if_neg (by decide)] at h4

/-- A state fresh for token `"T"` whose store holds a malformed line (no
colon). -/
def stM : SyncState := ⟨"T", [("1", ["123"])]⟩

/-- A censored post record with id 5 and width 100. -/
def postM : Post := { id := 5, image_width := 100 }

/-- C2 counterexample: a malformed batch line (no colon) makes the lookup
raise `ValueError`, which escapes `fill_missing_info` (only `TypeError` is
caught), `decensor`, and the `decensor_iter` traversal: the iteration
aborts instead of yielding the post unchanged. -/
theorem claim2_counterexample :
    decensor_iter envT stM [postM] "https://danbooru.donmai.us" =
      .error PyErr.valueError := by decide

/-- C2 amended: a post that fails to RESOLVE (its id absent from every
batch) is yielded unchanged and the traversal continues; this holds when
the batch lines are well-formed and no network sync runs (here: the mirror
is already fresh for the day).  Malformed batch lines and network errors,
by contrast, do raise out of the iteration. -/
theorem claim2_amended_iteration (env : Env) (s : SyncState) (posts : List Post)
    (site : String) (hf : s.lastPullDate = env.today)
    (hg : goodStore s.localBatches = true) :
    decensor_iter env s posts site =
      .ok (posts.map (fun p => resolvePure s.localBatches p site), s) ∧
    ∀ p : Post, scanStore (toString p.id) s.localBatches = .ok none →
      resolvePure s.localBatches p site = p := by
  refine ⟨decensor_iter_fresh env s posts site hf hg, ?_⟩
  intro p hnone
  by_cases hm : p.md5.isSome <;> simp [resolvePure, hm, hnone]

/-- Closed instantiation of the amended C2 theorem: a two-post traversal
in which the second post misses every batch completes and returns the
second post unchanged. -/
theorem claim2_amended_witness :
    decensor_iter envT stT [postT, { postT with id := 6 }] "x" =
      .ok ([resolvePure stT.localBatches postT "x", { postT with id := 6 }], stT) := by
  obtain ⟨h1, h2⟩ :=
    claim2_amended_iteration envT stT [postT, { postT with id := 6 }] "x" rfl (by decide)
  rw [h1]
  simp only [List.map_cons, List.map_nil]
  rw [h2 { postT with id := 6 } (by decide)]

/-- C6: during a sync, a remote batch (among the file-type entries, with
distinct numeric names) has its download attempted exactly when it is not
already present locally or it is the remote batch with the highest numeric
name — so every locally-present batch is skipped except the highest-named
one, which is always fetched. -/
theorem claim6_skip_policy (entries : List RemoteEntry)
    (fetch : String → Option (List String)) (store : List (String × List String))
    (hkeys : (((entries.filter (fun e => e.type == "file")).map
      (fun e => e.name)).map keyOf).Nodup) :
    ∀ n ∈ (entries.filter (fun e => e.type == "file")).map (fun e => e.name),
      (n ∈ (updateBatches entries fetch store).1 ↔
        (n ∉ store.map (fun b => b.1) ∨
          ∀ m ∈ (entries.filter (fun e => e.type == "file")).map (fun e => e.name),
            keyOf m ≤ keyOf n)) := by
  intro n hn
  have hnames : ((entries.filter (fun e => e.type == "file")).map
      (fun e => (e.name, e.download_url))).map (fun p => p.1) =
      (entries.filter (fun e => e.type == "file")).map (fun e => e.name) := by
    rw [List.map_map]; rfl
  simp only [updateBatches, hnames, List.mem_filter]
  set names := (entries.filter (fun e => e.type == "file")).map (fun e => e.name) with hnm
  set ord := List.insertionSort keyLe names with hord
  have hperm := List.perm_insertionSort keyLe names
  have hsort := List.sorted_insertionSort keyLe names
  have hmem : ∀ x, x ∈ ord ↔ x ∈ names := fun x => hperm.mem_iff
  have hnord : n ∈ ord := (hmem n).mpr hn
  have hlast : some n = ord.getLast? ↔ ∀ m ∈ names, keyOf m ≤ keyOf n := by
    constructor
    · intro heq m hm
      exact sorted_keyLe_getLastQ ord hsort m ((hmem m).mpr hm) n heq.symm
    · intro hmax
      have hne : ord ≠ [] := by
        intro h0
        rw [h0] at hnord
        exact List.not_mem_nil n hnord
      have hgl : ord.getLast? = some (ord.getLast hne) :=
        List.getLast?_eq_getLast_of_ne_nil hne
      have hLmem : ord.getLast hne ∈ names := (hmem _).mp (List.getLast_mem hne)
      have h₁ : keyOf (ord.getLast hne) ≤ keyOf n := hmax _ hLmem
      have h₂ : keyOf n ≤ keyOf (ord.getLast hne) :=
        sorted_keyLe_getLastQ ord hsort n hnord _ hgl
      have : n = ord.getLast hne :=
        List.inj_on_of_nodup_map hkeys hn hLmem (Nat.le_antisymm h₂ h₁)
      rw [hgl, this]
  have hpred_iff :
      (!((store.map (fun b => b.1)).contains n && !(some n == ord.getLast?))) = true ↔
        (n ∉ store.map (fun b => b.1) ∨ some n = ord.getLast?) := by
    simp
  constructor
  · rintro ⟨-, hpred⟩
    rcases hpred_iff.mp hpred with hin | heq
    · exact Or.inl hin
    · exact Or.inr (hlast.mp heq)
  · intro hr
    refine ⟨hnord, hpred_iff.mpr ?_⟩
    rcases hr with hout | hmax
    · exact Or.inl hout
    · exact Or.inr (hlast.mpr hmax)

/-- Remote listing with three file entries named 1, 2, 3. -/
def entries123 : List RemoteEntry :=
  [⟨"1", "file", "u1"⟩, ⟨"2", "file", "u2"⟩, ⟨"3", "file", "u3"⟩]

/-- Local store already holding batches 1, 2 and 3. -/
def store123 : List (String × List String) :=
  [("1", []), ("2", []), ("3", [])]

/-- Closed instantiation of the C6 theorem: with remote and local batches
both `{1, 2, 3}`, the sync fetches `"3"` (the highest) and skips `"1"`. -/
theorem claim6_witness :
    "3" ∈ (updateBatches entries123 (fun _ => none) store123).1 ∧
    "1" ∉ (updateBatches entries123 (fun _ => none) store123).1 := by
  have h := claim6_skip_policy entries123 (fun _ => none) store123 (by decide)
  constructor
  · exact (h "3" (by decide)).mpr (Or.inr (by decide))
  · intro hmem
    rcases (h "1" (by decide)).mp hmem with hc | hc
    · exact hc (by decide)
    · exact absurd (hc "3" (by decide)) (by decide)

end Pydecensooru
